import Mathlib

/-!
Verification of the PirateSurfGame application logic.

The JavaScript source is shallowly embedded: numeric fields become rational
numbers (real numbers where the code takes real-exponent powers), engine
objects are reduced to the fields the application reads and writes, and
external engine queries (raycasts, physics-backend velocities, the clock)
appear as explicit boolean or numeric parameters.
-/

namespace PirateSurf

/-! ## Ship controls: constants

Constructor constants shared by both ShipControls prototypes in
src/inputControls.js: acceleration 0.5, deceleration 0.98, maxSpeed 10.0,
speed 0.8, maxRotationSpeed 2.0, baseRotationSpeed 1.0, jumpPower 150
(second prototype; the earlier assignment 100 is overwritten). -/

def maxSpeed : ℚ := 10

def shipSpeed : ℚ := 4/5

def shipAcceleration : ℚ := 1/2

/-- Key state of ShipControls (the keys object of the constructor). -/
structure Keys where
  w : Bool
  a : Bool
  s : Bool
  d : Bool
  shift : Bool
deriving DecidableEq

/-- Target-speed update of the first ShipControls prototype
(src/inputControls.js lines 131-147).  The branch on w adds speed unless
targetSpeed is already at or above maxSpeed; the branch on s subtracts
speed times 0.5 unless targetSpeed is already at or below minus half of
maxSpeed; with no input a positive targetSpeed loses one percent of itself
and a negative targetSpeed gains targetSpeed times 0.01, which is negative.
The delta time is not read by this part of update. -/
def targetStep1 (k : Keys) (t : ℚ) : ℚ :=
  if k.w then
    if t ≥ maxSpeed then t else t + shipSpeed
  else if k.s then
    if t ≤ -(maxSpeed/2) then t else t - shipSpeed * (1/2)
  else if t > 0 then t - t * (1/100)
  else if t < 0 then t + t * (1/100)
  else t

/-- Target-speed update of the second, jump-enabled ShipControls prototype
(src/inputControls.js lines 557-573).  Identical to targetStep1 except that
the no-input branches add or subtract the constant speed times 0.01. -/
def targetStep2 (k : Keys) (t : ℚ) : ℚ :=
  if k.w then
    if t ≥ maxSpeed then t else t + shipSpeed
  else if k.s then
    if t ≤ -(maxSpeed/2) then t else t - shipSpeed * (1/2)
  else if t > 0 then t - shipSpeed * (1/100)
  else if t < 0 then t + shipSpeed * (1/100)
  else t

/-- targetSpeed after a sequence of update calls of the first prototype,
starting from the constructor value 0. -/
def reachTarget1 (ks : List Keys) : ℚ :=
  ks.foldl (fun t k => targetStep1 k t) 0

/-- targetSpeed after a sequence of update calls of the second prototype,
starting from the constructor value 0. -/
def reachTarget2 (ks : List Keys) : ℚ :=
  ks.foldl (fun t k => targetStep2 k t) 0

/-- Only the w key pressed. -/
def kW : Keys := ⟨true, false, false, false, false⟩

/-- Only the s key pressed. -/
def kS : Keys := ⟨false, false, true, false, false⟩

/-- No key pressed. -/
def kNone : Keys := ⟨false, false, false, false, false⟩

theorem targetStep1_lt_bound (k : Keys) (t : ℚ) (h : t < maxSpeed + shipSpeed) :
    targetStep1 k t < maxSpeed + shipSpeed := by
  unfold targetStep1 maxSpeed shipSpeed at *
  split_ifs with h1 h2 h3 h4 h5 h6 <;> linarith

theorem foldl_targetStep1_lt (ks : List Keys) :
    ∀ t : ℚ, t < maxSpeed + shipSpeed →
      ks.foldl (fun t k => targetStep1 k t) t < maxSpeed + shipSpeed := by
  induction ks with
  | nil => intro t ht; simpa using ht
  | cons k ks ih =>
      intro t ht
      simpa using ih (targetStep1 k t) (targetStep1_lt_bound k t ht)

/-- Claim C1, as stated, is false: thirteen consecutive update calls with w
held take targetSpeed to 10.4, strictly above maxSpeed = 10; and thirteen
calls with s held followed by twenty calls with no key held take targetSpeed
below minus half of maxSpeed and keep driving it further down (the no-input
branch multiplies a negative targetSpeed by 1.01). -/
theorem C1_counterexample :
    reachTarget1 (List.replicate 13 kW) > maxSpeed ∧
    reachTarget1 (List.replicate 13 kS) < -(maxSpeed/2) ∧
    reachTarget1 (List.replicate 13 kS ++ List.replicate 20 kNone) <
      -(maxSpeed/2) - shipSpeed := by
  refine ⟨?_, ?_, ?_⟩ <;>
    norm_num [reachTarget1, targetStep1, kW, kS, kNone, maxSpeed, shipSpeed,
      List.replicate]

/-- Claim C1, amended: over every sequence of update calls of the first
prototype starting from rest, targetSpeed stays strictly below
maxSpeed + speed = 10.8.  The stated exact bound maxSpeed can be exceeded by
up to one increment, and no constant lower bound holds, because the reverse
branch overshoots minus half of maxSpeed by up to half an increment and the
no-input branch then grows the magnitude of a negative targetSpeed. -/
theorem C1_amended (ks : List Keys) :
    reachTarget1 ks < maxSpeed + shipSpeed :=
  foldl_targetStep1_lt ks 0 (by norm_num [maxSpeed, shipSpeed])

/-- Claim C2, as stated, is false: from the shared initial state 0, the input
sequence w, w, no-key yields targetSpeed 1.584 under the first prototype and
1.592 under the second, so the two revisions of ShipControls.update are not
equivalent. -/
theorem C2_counterexample :
    reachTarget1 [kW, kW, kNone] ≠ reachTarget2 [kW, kW, kNone] := by
  norm_num [reachTarget1, reachTarget2, targetStep1, targetStep2, kW, kNone,
    maxSpeed, shipSpeed]

/-- Claim C2, amended: a single update step of the first and of the second
prototype computes the same targetSpeed exactly when w is pressed, or s is
pressed, or the current targetSpeed is 0 or equals speed = 0.8; on every
other no-input step the two decay rules (one percent of targetSpeed versus
one percent of speed) disagree. -/
theorem C2_amended (k : Keys) (t : ℚ) :
    targetStep1 k t = targetStep2 k t ↔
      (k.w = true ∨ k.s = true ∨ t = 0 ∨ t = shipSpeed) := by
  cases hw : k.w with
  | true => simp [targetStep1, targetStep2, hw]
  | false =>
    cases hs : k.s with
    | true => simp [targetStep1, targetStep2, hw, hs]
    | false =>
      unfold targetStep1 targetStep2 shipSpeed
      simp only [hw, hs, Bool.false_eq_true, if_false, false_or]
      rcases lt_trichotomy t 0 with h | h | h
      · rw [if_neg (by linarith : ¬ t > 0), if_pos h,
            if_neg (by linarith : ¬ t > 0), if_pos h]
        constructor
        · intro he
          exfalso
          have ht : t = 4/5 := by linarith
          linarith
        · intro hr
          exfalso
          rcases hr with hr | hr <;> linarith
      · subst h
        norm_num
      · rw [if_pos h, if_pos h]
        constructor
        · intro he
          right
          linarith
        · intro hr
          rcases hr with hr | hr
          · exfalso; linarith
          · rw [hr]

/-! ## Rotation integration (ShipControls.update, src/inputControls.js
lines 106-124; identical in the second prototype, lines 531-550) -/

/-- Speed-dependent turn factor (line 108):
0.5 + 0.5 * min(|currentSpeed| / maxSpeed, 1). -/
def speedFactor (cs : ℚ) : ℚ := 1/2 + 1/2 * min (|cs| / maxSpeed) 1

/-- Per-frame yaw increment (line 109):
currentRotationSpeed * speedFactor * deltaTime. -/
def rotationAmount (crs cs dt : ℚ) : ℚ := crs * speedFactor cs * dt

/-- Yaw update (lines 106-112): the increment is added to ship.rotation.y
only when the magnitude of currentRotationSpeed exceeds 0.001. -/
def rotStep (y crs cs dt : ℚ) : ℚ :=
  if |crs| > 1/1000 then y + rotationAmount crs cs dt else y

theorem speedFactor_nonneg (cs : ℚ) : 0 ≤ speedFactor cs := by
  unfold speedFactor maxSpeed
  have h0 : (0:ℚ) ≤ min (|cs| / 10) 1 :=
    le_min (div_nonneg (abs_nonneg cs) (by norm_num)) (by norm_num)
  linarith

theorem speedFactor_half_le (cs : ℚ) : 1/2 ≤ speedFactor cs := by
  unfold speedFactor maxSpeed
  have h0 : (0:ℚ) ≤ min (|cs| / 10) 1 :=
    le_min (div_nonneg (abs_nonneg cs) (by norm_num)) (by norm_num)
  linarith

theorem speedFactor_le_one (cs : ℚ) : speedFactor cs ≤ 1 := by
  unfold speedFactor maxSpeed
  have h1 : min (|cs| / 10) 1 ≤ 1 := min_le_right _ _
  linarith

theorem speedFactor_mono (cs₁ cs₂ : ℚ) (h : |cs₁| ≤ |cs₂|) :
    speedFactor cs₁ ≤ speedFactor cs₂ := by
  unfold speedFactor maxSpeed
  have hm : min (|cs₁| / 10) 1 ≤ min (|cs₂| / 10) 1 :=
    min_le_min (by linarith) le_rfl
  linarith

theorem abs_rotationAmount (crs cs dt : ℚ) :
    |rotationAmount crs cs dt| = |crs| * speedFactor cs * |dt| := by
  unfold rotationAmount
  rw [abs_mul, abs_mul, abs_of_nonneg (speedFactor_nonneg cs)]

/-- Claim C4: whenever the rotation-speed magnitude exceeds 0.001, the yaw
angle is incremented by exactly currentRotationSpeed times
(0.5 + 0.5 * min(|currentSpeed| / maxSpeed, 1)) times deltaTime; for fixed
currentRotationSpeed and deltaTime the per-frame turn magnitude is
monotonically non-decreasing in |currentSpeed| and lies between one half of
|currentRotationSpeed * deltaTime| and |currentRotationSpeed * deltaTime|. -/
theorem C4_rotation_integration (y crs cs cs₁ cs₂ dt : ℚ)
    (h : |crs| > 1/1000) (hmono : |cs₁| ≤ |cs₂|) :
    rotStep y crs cs dt = y + crs * (1/2 + 1/2 * min (|cs| / maxSpeed) 1) * dt ∧
    |rotationAmount crs cs₁ dt| ≤ |rotationAmount crs cs₂ dt| ∧
    (1/2) * |crs * dt| ≤ |rotationAmount crs cs dt| ∧
    |rotationAmount crs cs dt| ≤ |crs * dt| := by
  refine ⟨?_, ?_, ?_, ?_⟩
  · rw [rotStep, if_pos h, rotationAmount, speedFactor]
  · rw [abs_rotationAmount, abs_rotationAmount]
    exact mul_le_mul_of_nonneg_right
      (mul_le_mul_of_nonneg_left (speedFactor_mono cs₁ cs₂ hmono) (abs_nonneg crs))
      (abs_nonneg dt)
  · rw [abs_rotationAmount, abs_mul]
    have hcd : (0:ℚ) ≤ |crs| * |dt| := mul_nonneg (abs_nonneg crs) (abs_nonneg dt)
    have hkey : 0 ≤ (speedFactor cs - 1/2) * (|crs| * |dt|) :=
      mul_nonneg (by linarith [speedFactor_half_le cs]) hcd
    nlinarith [hkey]
  · rw [abs_rotationAmount, abs_mul]
    have hcd : (0:ℚ) ≤ |crs| * |dt| := mul_nonneg (abs_nonneg crs) (abs_nonneg dt)
    have hkey : 0 ≤ (1 - speedFactor cs) * (|crs| * |dt|) :=
      mul_nonneg (by linarith [speedFactor_le_one cs]) hcd
    nlinarith [hkey]

/-- Concrete instance of C4_rotation_integration at currentRotationSpeed 1,
currentSpeed 0 (and 0 versus 5 for the monotonicity part) and deltaTime 1. -/
theorem C4_witness :
    rotStep 0 1 0 1 = 0 + 1 * (1/2 + 1/2 * min (|(0:ℚ)| / maxSpeed) 1) * 1 ∧
    |rotationAmount 1 0 1| ≤ |rotationAmount 1 5 1| ∧
    (1/2) * |(1:ℚ) * 1| ≤ |rotationAmount 1 0 1| ∧
    |rotationAmount 1 0 1| ≤ |(1:ℚ) * 1| :=
  C4_rotation_integration 0 1 0 0 5 1 (by norm_num) (by norm_num)

/-! ## Forward-speed integration (ShipControls.update, src/inputControls.js
lines 150-165; identical in the second prototype, lines 576-591)

The source computes Math.pow(0.98, deltaTime * 60) with a real exponent, so
this part of the state is embedded over the real numbers. -/

/-- BABYLON.Scalar.Lerp: start + (end - start) * amount. -/
noncomputable def lerp (a b amt : ℝ) : ℝ := a + (b - a) * amt

/-- The per-step decay of the no-input branch: deceleration raised to the
real power deltaTime * 60, written 0.98 ^ (60 dt) in claim C3. -/
noncomputable def decayFactor (dt : ℝ) : ℝ := (49/50 : ℝ) ^ (dt * 60)

/-- Forward-speed update (lines 150-165): when |targetSpeed| > 0.01, lerp
currentSpeed toward targetSpeed with weight acceleration * deltaTime * 30;
otherwise lerp toward 0 with weight 1 - 0.98 ^ (deltaTime * 60) and snap the
result to 0 when its magnitude is below 0.01. -/
noncomputable def speedStep (c t dt : ℝ) : ℝ :=
  if |t| > 1/100 then
    lerp c t ((1/2) * dt * 30)
  else
    let c2 := lerp c 0 (1 - (49/50 : ℝ) ^ (dt * 60))
    if |c2| < 1/100 then 0 else c2

theorem speedStep_decel (c t dt : ℝ) (ht : |t| ≤ 1/100)
    (h : 1/100 ≤ |c * decayFactor dt|) :
    speedStep c t dt = c * decayFactor dt := by
  unfold speedStep
  rw [if_neg (not_lt.mpr ht)]
  have he : lerp c 0 (1 - (49/50 : ℝ) ^ (dt * 60)) = c * decayFactor dt := by
    unfold lerp decayFactor
    ring
  simp only [he]
  rw [if_neg (not_lt.mpr h)]

theorem decayFactor_add (dt₁ dt₂ : ℝ) :
    decayFactor (dt₁ + dt₂) = decayFactor dt₁ * decayFactor dt₂ := by
  unfold decayFactor
  rw [show (dt₁ + dt₂) * 60 = dt₁ * 60 + dt₂ * 60 by ring,
    Real.rpow_add (by norm_num : (0:ℝ) < 49/50)]

/-- Claim C3: under |targetSpeed| <= 0.01 and with the snap-to-zero threshold
not hit, one deceleration step multiplies currentSpeed by exactly
0.98 ^ (60 dt), and two successive steps with delta times dt1 and dt2 give
the same currentSpeed as a single step with delta time dt1 + dt2. -/
theorem C3_decel_frame_rate_independent (c t dt₁ dt₂ : ℝ)
    (ht : |t| ≤ 1/100)
    (h1 : 1/100 ≤ |c * decayFactor dt₁|)
    (h2 : 1/100 ≤ |c * decayFactor dt₁ * decayFactor dt₂|) :
    speedStep c t dt₁ = c * decayFactor dt₁ ∧
    speedStep (speedStep c t dt₁) t dt₂ = speedStep c t (dt₁ + dt₂) := by
  have hs1 := speedStep_decel c t dt₁ ht h1
  have h12 : 1/100 ≤ |c * decayFactor (dt₁ + dt₂)| := by
    rw [decayFactor_add, ← mul_assoc]
    exact h2
  refine ⟨hs1, ?_⟩
  calc speedStep (speedStep c t dt₁) t dt₂
      = c * decayFactor dt₁ * decayFactor dt₂ := by
        rw [hs1]
        exact speedStep_decel _ t dt₂ ht h2
    _ = c * decayFactor (dt₁ + dt₂) := by rw [decayFactor_add]; ring
    _ = speedStep c t (dt₁ + dt₂) :=
        (speedStep_decel c t (dt₁ + dt₂) ht h12).symm

/-- Concrete instance of C3_decel_frame_rate_independent: from currentSpeed 1
with targetSpeed 0, two steps of 1/60 of a second compose to one step of 1/30
of a second, each step multiplying by 0.98 ^ 1 = 0.98. -/
theorem C3_witness :
    speedStep 1 0 (1/60) = 1 * decayFactor (1/60) ∧
    speedStep (speedStep 1 0 (1/60)) 0 (1/60) = speedStep 1 0 (1/60 + 1/60) := by
  have hd : decayFactor ((1:ℝ)/60) = 49/50 := by
    unfold decayFactor
    rw [show ((1:ℝ)/60) * 60 = 1 by norm_num, Real.rpow_one]
  exact C3_decel_frame_rate_independent 1 0 (1/60) (1/60)
    (by norm_num)
    (by rw [hd]; norm_num [abs_of_pos])
    (by rw [hd]; norm_num [abs_of_pos])

/-! ## Water-level clamp (ShipControls.update, src/inputControls.js lines
201-205 and 632-636; render-loop sync, src/app.js lines 643-660)

Only the vertical coordinates matter to claim C5.  The physics back-end may
move the collider between frames, so the pre-state colliderY is arbitrary.
The source field this.shipMesh is never assigned by either constructor, so
the trailing shipMesh block of update never runs. -/

/-- The y-coordinates and guard flags read by one ShipControls.update call. -/
structure YState where
  enabled : Bool
  hasShip : Bool
  hasScene : Bool
  hasCollider : Bool
  hasImpostor : Bool
  isJumping : Bool
  shipY : ℚ
  colliderY : ℚ
deriving DecidableEq

/-- Effect of updateJump (lines 407-502) on the vertical state: on landing
(the physics-dependent test velocity.y <= 0.1 combined with isOnSurface,
passed in as the boolean landing) the ship y snaps to groundY = 0 and the
jump ends; otherwise the vertical state is untouched (forces and impulses go
to the physics back-end). -/
def updateJumpY (s : YState) (landing : Bool) : YState :=
  if s.isJumping && s.hasCollider && s.hasImpostor && landing then
    { s with shipY := 0, isJumping := false }
  else s

/-- Vertical effect of the jump-enabled ShipControls.update (lines 504-655):
early return unless enabled with ship and scene; the collider block copies
only x and z, then clamps a negative collider y to 0 and resets the ship y
with it (lines 632-636). -/
def updateY2 (s : YState) (landing : Bool) : YState :=
  if !s.enabled || !s.hasShip || !s.hasScene then s
  else
    let s1 := updateJumpY s landing
    if s1.hasCollider then
      if s1.colliderY < 0 then { s1 with colliderY := 0, shipY := 0 } else s1
    else s1

/-- Vertical effect of the first-prototype ShipControls.update (lines
78-224): the collider block copies the full ship position, so collider y is
overwritten by ship y before the clamp at lines 201-205. -/
def updateY1 (s : YState) : YState :=
  if !s.enabled || !s.hasShip || !s.hasScene then s
  else if s.hasCollider then
    let s1 := { s with colliderY := s.shipY }
    if s1.colliderY < 0 then { s1 with colliderY := 0, shipY := 0 } else s1
  else s

/-- Vertical effect of the registerBeforeRender sync in src/app.js (lines
643-660): the model y is copied from the collider, then both are clamped at
water level.  The pair is (model y, collider y). -/
def renderSyncY (colliderY : ℚ) : ℚ × ℚ :=
  let modelY := colliderY
  if colliderY < 0 then (0, 0) else (modelY, colliderY)

/-- Claim C5, as stated, is false: an update call on a disabled control (the
entry script constructs ShipControls with enabled false) returns before the
clamp, so a collider pushed to y = -1 by the physics back-end stays at -1
after the call. -/
theorem C5_counterexample :
    (updateY2 ⟨false, true, true, true, true, false, -1, -1⟩ true).colliderY
      < 0 := by
  norm_num [updateY2]

/-- Claim C5, amended: after every ShipControls.update call whose body runs
(controls enabled, ship and scene present) on a ship with a collider, the
collider y is at least 0, in both prototypes and from any pre-state,
including during and after a jump; the render-loop sync in the entry script
applies the same clamp unconditionally, leaving both the collider y and the
model y at least 0.  A call on a disabled control leaves the state
untouched. -/
theorem C5_amended_water_clamp (s : YState) (landing : Bool) (cy : ℚ)
    (he : s.enabled = true) (hsh : s.hasShip = true) (hsc : s.hasScene = true)
    (hc : s.hasCollider = true) :
    0 ≤ (updateY2 s landing).colliderY ∧
    0 ≤ (updateY1 s).colliderY ∧
    0 ≤ (renderSyncY cy).1 ∧ 0 ≤ (renderSyncY cy).2 := by
  have hjc : (updateJumpY s landing).hasCollider = s.hasCollider := by
    unfold updateJumpY
    split_ifs <;> rfl
  have hg : (!s.enabled || !s.hasShip || !s.hasScene) = false := by
    rw [he, hsh, hsc]
    rfl
  refine ⟨?_, ?_, ?_, ?_⟩
  · unfold updateY2
    rw [hg]
    simp only [Bool.false_eq_true, if_false]
    rw [if_pos (hjc.trans hc)]
    split_ifs with hy
    · exact le_rfl
    · exact le_of_not_lt hy
  · unfold updateY1
    rw [hg]
    simp only [Bool.false_eq_true, if_false]
    rw [if_pos hc]
    split_ifs with hy
    · exact le_rfl
    · exact le_of_not_lt hy
  · unfold renderSyncY
    split_ifs with hy
    · exact le_rfl
    · exact le_of_not_lt hy
  · unfold renderSyncY
    split_ifs with hy
    · exact le_rfl
    · exact le_of_not_lt hy

/-- Concrete instance of C5_amended_water_clamp: an enabled update from
collider y = -3 (with a jump in flight and a landing this frame) ends with
collider y at least 0, and the render sync clamps collider y = -2. -/
theorem C5_witness :
    0 ≤ (updateY2 ⟨true, true, true, true, true, true, 4, -3⟩ true).colliderY ∧
    0 ≤ (updateY1 ⟨true, true, true, true, true, true, 4, -3⟩).colliderY ∧
    0 ≤ (renderSyncY (-2)).1 ∧ 0 ≤ (renderSyncY (-2)).2 :=
  C5_amended_water_clamp ⟨true, true, true, true, true, true, 4, -3⟩ true (-2)
    rfl rfl rfl rfl

/-! ## Jump guard (ShipControls.handleJump, src/inputControls.js lines
355-405, and ShipControls.isOnSurface, lines 317-353) -/

/-- A rational 3-vector (BABYLON.Vector3 with rational components). -/
structure Vec3 where
  x : ℚ
  y : ℚ
  z : ℚ
deriving DecidableEq

/-- Componentwise vector sum (BABYLON addInPlace / add). -/
def Vec3.add (a b : Vec3) : Vec3 := ⟨a.x + b.x, a.y + b.y, a.z + b.z⟩

/-- Componentwise scaling (BABYLON scale). -/
def Vec3.scale (a : Vec3) (c : ℚ) : Vec3 := ⟨a.x * c, a.y * c, a.z * c⟩

/-- Control and physics state read and written by handleJump.  rayHit stands
for the external raycast result hit.hit of isOnSurface; appliedImpulse
records the impulse handed to the physics back-end, none before the call. -/
structure JumpControls where
  jumpEnabled : Bool
  isJumping : Bool
  jumpPower : ℚ
  jumpForce : ℚ
  jumpStartTime : ℚ
  jumpForceActive : Bool
  jumpForceDuration : ℚ
  jumpStartY : ℚ
  maxHeightReached : ℚ
  shipY : ℚ
  hasCollider : Bool
  colliderY : ℚ
  rayHit : Bool
  hasImpostor : Bool
  linearVelocity : Vec3
  angularVelocity : Vec3
  appliedImpulse : Option Vec3
deriving DecidableEq

/-- ShipControls.isOnSurface (lines 317-353): false without a collider; true
at or below y = 0.2; otherwise the raycast result, combined at line 344 as
hit.hit or position.y at most 0.2. -/
def isOnSurface (s : JumpControls) : Bool :=
  if !s.hasCollider then false
  else if s.colliderY ≤ 1/5 then true
  else s.rayHit || decide (s.colliderY ≤ 1/5)

/-- ShipControls.handleJump (lines 355-405): return unchanged unless
jumpEnabled, not isJumping, and isOnSurface; otherwise start the jump
(isJumping, jumpForce := jumpPower, timing fields, height bookkeeping) and,
when the collider has a physics impostor, zero both velocities and apply the
initial impulse (0, jumpForce * 0.1, 0). -/
def handleJump (s : JumpControls) (now : ℚ) : JumpControls :=
  if !s.jumpEnabled || s.isJumping || !(isOnSurface s) then s
  else
    let s1 := { s with
      isJumping := true
      jumpForce := s.jumpPower
      jumpStartTime := now
      jumpForceActive := true
      jumpForceDuration := 1/2
      jumpStartY := s.shipY
      maxHeightReached := s.shipY }
    if s1.hasCollider && s1.hasImpostor then
      { s1 with
        linearVelocity := ⟨0, 0, 0⟩
        angularVelocity := ⟨0, 0, 0⟩
        appliedImpulse := some ⟨0, s1.jumpForce * (1/10), 0⟩ }
    else s1

/-- Claim C6: handleJump changes the jump state exactly when jumpEnabled
holds, isJumping does not, and isOnSurface holds; when the guard fails the
whole control state is returned unchanged, so in particular a new jump never
starts while one is in flight; when the guard passes, isJumping is set,
jumpForce becomes jumpPower, and with a physics impostor present both
velocities are zeroed and the initial impulse (0, jumpPower * 0.1, 0) is
applied. -/
theorem C6_handleJump_guard (s : JumpControls) (now : ℚ) :
    (handleJump s now = s ↔
      ¬(s.jumpEnabled = true ∧ s.isJumping = false ∧ isOnSurface s = true)) ∧
    ((s.jumpEnabled = true ∧ s.isJumping = false ∧ isOnSurface s = true) →
      ((handleJump s now).isJumping = true ∧
       (handleJump s now).jumpForce = s.jumpPower ∧
       (s.hasCollider = true → s.hasImpostor = true →
         ((handleJump s now).linearVelocity = ⟨0, 0, 0⟩ ∧
          (handleJump s now).angularVelocity = ⟨0, 0, 0⟩ ∧
          (handleJump s now).appliedImpulse =
            some ⟨0, s.jumpPower * (1/10), 0⟩)))) := by
  by_cases hpre : s.jumpEnabled = true ∧ s.isJumping = false ∧ isOnSurface s = true
  · obtain ⟨he, hj, ho⟩ := hpre
    have hguard : (!s.jumpEnabled || s.isJumping || !(isOnSurface s)) = false := by
      rw [he, hj, ho]
      rfl
    constructor
    · constructor
      · intro heq
        intro _
        have : (handleJump s now).isJumping = s.isJumping := by rw [heq]
        rw [hj] at this
        unfold handleJump at this
        rw [hguard] at this
        simp only [Bool.false_eq_true, if_false] at this
        split_ifs at this
      · intro hn
        exact absurd ⟨he, hj, ho⟩ hn
    · intro _
      unfold handleJump
      rw [hguard]
      simp only [Bool.false_eq_true, if_false]
      refine ⟨?_, ?_, ?_⟩
      · split_ifs <;> rfl
      · split_ifs <;> rfl
      · intro hc hi
        rw [if_pos (by rw [hc, hi]; rfl)]
        exact ⟨rfl, rfl, rfl⟩
  · have hguard : (!s.jumpEnabled || s.isJumping || !(isOnSurface s)) = true := by
      cases he : s.jumpEnabled with
      | false => rfl
      | true =>
        cases hj : s.isJumping with
        | true => rfl
        | false =>
          cases ho : isOnSurface s with
          | true => exact absurd ⟨he, hj, ho⟩ hpre
          | false => rfl
    have heq : handleJump s now = s := by
      unfold handleJump
      rw [hguard]
      rfl
    exact ⟨⟨fun _ => hpre, fun _ => heq⟩, fun hp => absurd hp hpre⟩

/-- A control state about to jump: enabled, not jumping, on the surface,
with a collider and an impostor. -/
def jumpReady : JumpControls :=
  ⟨true, false, 150, 0, 0, false, 0, 0, 0, 0, true, 0, false, true,
    ⟨1, 2, 3⟩, ⟨0, 1, 0⟩, none⟩

/-- Concrete instance of C6_handleJump_guard at jumpReady: the jump starts,
jumpForce becomes jumpPower = 150, the velocities are zeroed and the impulse
(0, 15, 0) is applied. -/
theorem C6_witness :
    (handleJump jumpReady 0).isJumping = true ∧
    (handleJump jumpReady 0).jumpForce = 150 ∧
    (handleJump jumpReady 0).appliedImpulse = some ⟨0, 150 * (1/10), 0⟩ := by
  have h := (C6_handleJump_guard jumpReady 0).2
    ⟨rfl, rfl, by norm_num [isOnSurface, jumpReady]⟩
  exact ⟨h.1, h.2.1, (h.2.2 rfl rfl).2.2⟩

/-! ## Wake trail (WaterTrail of src/unnamed/part_001)

Option defaults: maxTrailLength 20, segmentLifetime 1.5 s, width 2,
maxWidth 5, minSpeed 0.05, maxSpeed 0.3, color (0.5, 0.7, 1, 0.6). -/

def segmentLifetime : ℚ := 3/2

def maxTrailLength : ℕ := 20

def trailMinSpeed : ℚ := 1/20

def trailMaxSpeed : ℚ := 3/10

def trailWidth : ℚ := 2

def trailMaxWidth : ℚ := 5

def trailColorA : ℚ := 3/5

/-- One wake segment: position on the water plane (y is forced to 0), ribbon
width, creation time, fade alpha. -/
structure TrailSegment where
  posX : ℚ
  posZ : ℚ
  width : ℚ
  time : ℚ
  alpha : ℚ
deriving DecidableEq

/-- Width of a new segment (part_001 lines 56-60): base width plus the span
to maxWidth times the clamped speed fraction. -/
def segmentWidth (sp : ℚ) : ℚ :=
  let sr := min 1 ((sp - trailMinSpeed) / (trailMaxSpeed - trailMinSpeed))
  trailWidth + (trailMaxWidth - trailWidth) * sr

/-- Lines 54-73: when the ship moves faster than minSpeed, a new segment
with alpha 1.0 and time now is unshifted to the front of the list. -/
def addSegment (now sp px pz : ℚ) (segs : List TrailSegment) :
    List TrailSegment :=
  if sp > trailMinSpeed then ⟨px, pz, segmentWidth sp, now, 1⟩ :: segs
  else segs

/-- Lines 75-79: pop segments from the back while the last one is older than
segmentLifetime.  Since unshift keeps the newest segment at the front, the
while loop drops a prefix of the reversed list. -/
def dropExpired (now : ℚ) (segs : List TrailSegment) : List TrailSegment :=
  (segs.reverse.dropWhile
    (fun sg => decide (now - sg.time > segmentLifetime))).reverse

/-- Lines 86-91: every surviving segment gets
alpha = 1 - age / segmentLifetime where age = now - segment.time. -/
def setAlphas (now : ℚ) (segs : List TrailSegment) : List TrailSegment :=
  segs.map (fun sg => { sg with alpha := 1 - (now - sg.time) / segmentLifetime })

/-- Segment bookkeeping of WaterTrail.update (lines 48-95): add a segment
when fast enough, drop expired segments from the back, cap the length at
maxTrailLength (the second while loop also pops from the back), then refresh
the alphas. -/
def trailUpdate (now sp px pz : ℚ) (segs : List TrailSegment) :
    List TrailSegment :=
  setAlphas now
    (List.take maxTrailLength (dropExpired now (addSegment now sp px pz segs)))

/-- The two per-vertex alpha entries updateTrailMesh pushes for one segment
(lines 130-136): the configured color alpha 0.6 times the segment alpha,
once for the left and once for the right ribbon vertex. -/
def colorAlphaEntries (segs : List TrailSegment) : List ℚ :=
  segs.flatMap (fun sg => [trailColorA * sg.alpha, trailColorA * sg.alpha])

theorem mem_dropWhile_age (now : ℚ) :
    ∀ r : List TrailSegment,
      r.Pairwise (fun a b => a.time ≤ b.time) →
      ∀ sg ∈ r.dropWhile
        (fun sg : TrailSegment => decide (now - sg.time > segmentLifetime)),
        now - sg.time ≤ segmentLifetime := by
  intro r
  induction r with
  | nil => intro _ sg hm; simp [List.dropWhile] at hm
  | cons h t ih =>
      intro hp sg hm
      rw [List.dropWhile_cons] at hm
      by_cases hph : now - h.time > segmentLifetime
      · rw [if_pos (by simpa using hph)] at hm
        exact ih (List.pairwise_cons.mp hp).2 sg hm
      · rw [if_neg (by simpa using hph)] at hm
        rcases List.mem_cons.mp hm with rfl | hm2
        · linarith
        · have hht : h.time ≤ sg.time := (List.pairwise_cons.mp hp).1 sg hm2
          linarith

theorem mem_dropExpired (now : ℚ) (l : List TrailSegment) (sg : TrailSegment)
    (hm : sg ∈ dropExpired now l) : sg ∈ l := by
  unfold dropExpired at hm
  rw [List.mem_reverse] at hm
  have := (List.dropWhile_suffix
    (fun sg : TrailSegment =>
      decide (now - sg.time > segmentLifetime))).sublist.mem hm
  rwa [List.mem_reverse] at this

/-- Claim C7: in every WaterTrail.update call on a trail whose segment times
are at most now and ordered newest first, every surviving segment gets alpha
exactly 1 - age / segmentLifetime, this alpha lies in [0, 1] and is strictly
decreasing in age, and every per-vertex alpha entry written by
updateTrailMesh is the configured color alpha times the segment alpha. -/
theorem C7_trail_alpha_fade (now sp px pz : ℚ) (segs : List TrailSegment)
    (hsorted : segs.Pairwise (fun a b => b.time ≤ a.time))
    (htimes : ∀ sg ∈ segs, sg.time ≤ now) :
    (∀ sg ∈ trailUpdate now sp px pz segs,
        sg.alpha = 1 - (now - sg.time) / segmentLifetime ∧
        0 ≤ sg.alpha ∧ sg.alpha ≤ 1) ∧
    (∀ sg₁ ∈ trailUpdate now sp px pz segs,
      ∀ sg₂ ∈ trailUpdate now sp px pz segs,
        now - sg₁.time < now - sg₂.time → sg₂.alpha < sg₁.alpha) ∧
    (∀ v ∈ colorAlphaEntries (trailUpdate now sp px pz segs),
        ∃ sg ∈ trailUpdate now sp px pz segs,
          v = trailColorA * sg.alpha ∧ 0 ≤ v ∧ v ≤ trailColorA) := by
  set L := addSegment now sp px pz segs with hLdef
  have hLsorted : L.Pairwise (fun a b => b.time ≤ a.time) := by
    rw [hLdef]
    unfold addSegment
    split_ifs
    · exact List.pairwise_cons.mpr ⟨fun b hb => htimes b hb, hsorted⟩
    · exact hsorted
  have hLtimes : ∀ sg ∈ L, sg.time ≤ now := by
    rw [hLdef]
    unfold addSegment
    split_ifs
    · intro sg hm
      rcases List.mem_cons.mp hm with rfl | hm2
      · exact le_rfl
      · exact htimes sg hm2
    · exact htimes
  have hage : ∀ sg ∈ List.take maxTrailLength (dropExpired now L),
      0 ≤ now - sg.time ∧ now - sg.time ≤ segmentLifetime := by
    intro sg hm
    have hmd : sg ∈ dropExpired now L := List.mem_of_mem_take hm
    have hmL : sg ∈ L := mem_dropExpired now L sg hmd
    constructor
    · have := hLtimes sg hmL
      linarith
    · unfold dropExpired at hmd
      rw [List.mem_reverse] at hmd
      exact mem_dropWhile_age now L.reverse
        ((List.pairwise_reverse).mpr hLsorted) sg hmd
  have hmain : ∀ sg ∈ trailUpdate now sp px pz segs,
      sg.alpha = 1 - (now - sg.time) / segmentLifetime ∧
      0 ≤ sg.alpha ∧ sg.alpha ≤ 1 := by
    intro sg hm
    unfold trailUpdate setAlphas at hm
    rw [← hLdef] at hm
    rcases List.mem_map.mp hm with ⟨sg0, hm0, rfl⟩
    obtain ⟨ha0, ha1⟩ := hage sg0 hm0
    refine ⟨rfl, ?_, ?_⟩
    · show 0 ≤ 1 - (now - sg0.time) / segmentLifetime
      unfold segmentLifetime at ha1 ⊢
      linarith
    · show 1 - (now - sg0.time) / segmentLifetime ≤ 1
      unfold segmentLifetime at ha1 ⊢
      linarith
  refine ⟨hmain, ?_, ?_⟩
  · intro sg₁ hm₁ sg₂ hm₂ hlt
    have h₁ := (hmain sg₁ hm₁).1
    have h₂ := (hmain sg₂ hm₂).1
    rw [h₁, h₂]
    unfold segmentLifetime
    linarith
  · intro v hv
    unfold colorAlphaEntries at hv
    rcases List.mem_flatMap.mp hv with ⟨sg, hmsg, hvin⟩
    obtain ⟨_, hge, hle⟩ := hmain sg hmsg
    have hveq : v = trailColorA * sg.alpha := by
      rcases List.mem_cons.mp hvin with rfl | hvin2
      · rfl
      · rcases List.mem_cons.mp hvin2 with rfl | hvin3
        · rfl
        · simp at hvin3
    refine ⟨sg, hmsg, hveq, ?_, ?_⟩
    · rw [hveq]
      unfold trailColorA
      positivity
    · rw [hveq]
      unfold trailColorA
      nlinarith

/-- Concrete instance of C7_trail_alpha_fade at time 10 with ship speed 0.1:
the surviving older segment (created at time 9.5) carries alpha
1 - 0.5 / 1.5 = 2/3, inside [0, 1]. -/
theorem C7_witness :
    (⟨0, 0, 2, 19/2, 2/3⟩ : TrailSegment).alpha =
      1 - (10 - (⟨0, 0, 2, 19/2, 2/3⟩ : TrailSegment).time) / segmentLifetime ∧
    0 ≤ (⟨0, 0, 2, 19/2, 2/3⟩ : TrailSegment).alpha ∧
    (⟨0, 0, 2, 19/2, 2/3⟩ : TrailSegment).alpha ≤ 1 := by
  have h := (C7_trail_alpha_fade 10 (1/10) 0 0 [⟨0, 0, 2, 19/2, 1⟩]
    (List.pairwise_singleton _ _)
    (by intro sg hm; rw [List.mem_singleton] at hm; subst hm; norm_num)).1
  exact h ⟨0, 0, 2, 19/2, 2/3⟩ (by
    norm_num [trailUpdate, addSegment, dropExpired, setAlphas, segmentWidth,
      trailMinSpeed, trailMaxSpeed, trailWidth, trailMaxWidth,
      segmentLifetime, maxTrailLength, List.dropWhile])

/-! ## Drifting clouds (SimpleClouds of src/simpleClouds.js)

Defaults: lifeTime 30000 ms, fade-in 2000 ms, fade-out over the last
5000 ms, target material alpha 0.8.  Times are in milliseconds as read from
Date.now(); dtms is the engine delta time in milliseconds. -/

def cloudLifeTime : ℚ := 30000

/-- Per-cloud bookkeeping of SimpleClouds (spawnCloud, lines 43-100): mesh x
position, material alpha (0 at spawn), per-cloud speed, spawn time, removal
target x; the flags model the truthiness checks on mesh and material at line
107. -/
structure Cloud where
  x : ℚ
  alpha : ℚ
  speed : ℚ
  spawnTime : ℚ
  targetX : ℚ
  hasMesh : Bool
  hasMaterial : Bool
deriving DecidableEq

/-- The material alpha written for a surviving cloud during
SimpleClouds.update (lines 115-128): fade in linearly to 0.8 during the
first 2000 ms, fade out linearly from 0.8 during the last 5000 ms of the
lifetime, otherwise leave the alpha unchanged. -/
def cloudAlpha (now : ℚ) (c : Cloud) : ℚ :=
  if now - c.spawnTime < 2000 then (4/5) * ((now - c.spawnTime) / 2000)
  else if now - c.spawnTime > cloudLifeTime - 5000 then
    (4/5) * (1 - (now - c.spawnTime - (cloudLifeTime - 5000)) / 5000)
  else c.alpha

/-- One iteration of the forEach in SimpleClouds.update (lines 102-151) for
one cloud: none means the cloud is marked for removal (splice).  A cloud
without mesh or material is removed; otherwise the x position advances by
speed * deltaTime * 0.1, the alpha is set by cloudAlpha, and the cloud is
removed (mesh disposed) when the new x passes targetX or its aliveTime
exceeds lifeTime. -/
def updateCloud (now dtms : ℚ) (c : Cloud) : Option Cloud :=
  if !c.hasMesh || !c.hasMaterial then none
  else if c.x + c.speed * dtms * (1/10) > c.targetX ∨
      now - c.spawnTime > cloudLifeTime then none
  else some { c with
    x := c.x + c.speed * dtms * (1/10)
    alpha := cloudAlpha now c }

/-- SimpleClouds.update over the clouds array: the forEach marks indices and
the final splice pass removes exactly the marked clouds, which is a
filterMap. -/
def cloudsUpdate (now dtms : ℚ) (cs : List Cloud) : List Cloud :=
  cs.filterMap (updateCloud now dtms)

theorem cloudAlpha_bounds (now : ℚ) (c : Cloud)
    (hal : 0 ≤ c.alpha) (hau : c.alpha ≤ 4/5)
    (hsp : c.spawnTime ≤ now) (hlt : now - c.spawnTime ≤ cloudLifeTime) :
    0 ≤ cloudAlpha now c ∧ cloudAlpha now c ≤ 4/5 := by
  unfold cloudAlpha cloudLifeTime at *
  split_ifs with h1 h2 <;> constructor <;> linarith

/-- Claim C9: with the default options, after every SimpleClouds.update call
each remaining cloud satisfies x at most targetX and aliveTime at most
lifeTime, its material alpha lies in [0, 0.8], and a cloud with mesh and
material that violates either bound is removed in the same call.  The
hypotheses are the spawn invariants: spawnCloud sets alpha to 0 and
spawnTime to the current clock, so on entry every alpha lies in [0, 0.8]
and every spawnTime is at most now. -/
theorem C9_cloud_invariants (now dtms : ℚ) (cs : List Cloud)
    (halpha : ∀ c ∈ cs, 0 ≤ c.alpha ∧ c.alpha ≤ 4/5)
    (hspawn : ∀ c ∈ cs, c.spawnTime ≤ now) :
    (∀ c2 ∈ cloudsUpdate now dtms cs,
        c2.x ≤ c2.targetX ∧ now - c2.spawnTime ≤ cloudLifeTime ∧
        0 ≤ c2.alpha ∧ c2.alpha ≤ 4/5) ∧
    (∀ c ∈ cs, c.hasMesh = true → c.hasMaterial = true →
        (c.x + c.speed * dtms * (1/10) > c.targetX ∨
          now - c.spawnTime > cloudLifeTime) →
        updateCloud now dtms c = none) := by
  constructor
  · intro c2 hm
    rcases List.mem_filterMap.mp hm with ⟨c, hmc, hup⟩
    obtain ⟨hal, hau⟩ := halpha c hmc
    have hsp := hspawn c hmc
    unfold updateCloud at hup
    split_ifs at hup with h1 h2
    rcases Option.some.inj hup with rfl
    push_neg at h2
    obtain ⟨hx, ht⟩ := h2
    exact ⟨hx, ht, cloudAlpha_bounds now c hal hau hsp ht⟩
  · intro c hmc hmesh hmat hviol
    unfold updateCloud
    rw [if_neg (by rw [hmesh, hmat]; simp), if_pos hviol]

/-- Concrete instance of C9_cloud_invariants: a freshly spawned cloud
(alpha 0, spawn time 0) surviving an update at time 1000 with a 16 ms frame
sits at x = 1.6 before targetX = 100 and carries the fade-in alpha 0.4. -/
theorem C9_witness :
    (⟨8/5, 2/5, 1, 0, 100, true, true⟩ : Cloud).x ≤
      (⟨8/5, 2/5, 1, 0, 100, true, true⟩ : Cloud).targetX ∧
    1000 - (⟨8/5, 2/5, 1, 0, 100, true, true⟩ : Cloud).spawnTime ≤
      cloudLifeTime ∧
    0 ≤ (⟨8/5, 2/5, 1, 0, 100, true, true⟩ : Cloud).alpha ∧
    (⟨8/5, 2/5, 1, 0, 100, true, true⟩ : Cloud).alpha ≤ 4/5 := by
  have h := (C9_cloud_invariants 1000 16 [⟨0, 0, 1, 0, 100, true, true⟩]
    (by intro c hm; rw [List.mem_singleton] at hm; subst hm; norm_num)
    (by intro c hm; rw [List.mem_singleton] at hm; subst hm; norm_num)).1
  exact h ⟨8/5, 2/5, 1, 0, 100, true, true⟩ (by
    norm_num [cloudsUpdate, updateCloud, cloudAlpha, cloudLifeTime,
      List.filterMap])

/-! ## Stern bubble wash (second, speed-scaled BubbleSystem of
src/unnamed/part_003)

Default options: maxBubbles 50 (also the sphere-pool size), emitRate 30 per
side.  The pool is a JavaScript array used as a stack (push and pop at the
back); the list head here models the back of that array, so the constructor
pool bubble_0 .. bubble_49 is the reversed range.  Sphere meshes are
identified by their pool index. -/

def maxBubbles : ℕ := 50

/-- One bubble particle as pushed by emitBubble (part_003 lines 545-553 and
568-576): the sphere it holds (none once freed back to the pool), remaining
and initial lifetime, kinematic state, size, bobbing clock.  position and
velocity are options because updateBubbleArray checks their presence at
line 423. -/
structure Bubble where
  sphere : Option ℕ
  lifetime : ℚ
  maxLifetime : ℚ
  position : Option Vec3
  velocity : Option Vec3
  size : ℚ
  time : ℚ
deriving DecidableEq

/-- The bubble-system state: the two per-side arrays and the sphere pool. -/
structure BubbleState where
  leftBubbles : List Bubble
  rightBubbles : List Bubble
  spherePool : List ℕ
deriving DecidableEq

/-- Constructor state (lines 324-349): empty sides and a pool of maxBubbles
spheres, with the head of the list standing for the back of the array. -/
def initBubbleState : BubbleState :=
  ⟨[], [], (List.range maxBubbles).reverse⟩

/-- The randomized quantities of one emitBubble call (lines 486-530), passed
in as parameters: shared lifetime, spawn positions, velocities, sizes and
bobbing phases for the two sides. -/
structure EmitParams where
  lifetime : ℚ
  posL : Vec3
  posR : Vec3
  velL : Vec3
  velR : Vec3
  sizeL : ℚ
  sizeR : ℚ
  timeL : ℚ
  timeR : ℚ
deriving DecidableEq

/-- BubbleSystem.emitBubble (lines 481-578): return unchanged when either
side is full or fewer than two spheres remain in the pool; otherwise pop a
sphere for the left particle and one for the right and append a particle to
each side (the pop-guard branches for an exhausted pool are unreachable
under the length guard but mirror the if tests on the popped spheres). -/
def emitBubble (st : BubbleState) (pr : EmitParams) : BubbleState :=
  if st.leftBubbles.length ≥ maxBubbles ∨ st.rightBubbles.length ≥ maxBubbles ∨
      st.spherePool.length < 2 then st
  else
    match st.spherePool with
    | [] => st
    | sphL :: pool1 =>
      let st1 : BubbleState :=
        { st with
          leftBubbles := st.leftBubbles ++
            [⟨some sphL, pr.lifetime, pr.lifetime, some pr.posL, some pr.velL,
              pr.sizeL, pr.timeL⟩]
          spherePool := pool1 }
      match pool1 with
      | [] => st1
      | sphR :: pool2 =>
        { st1 with
          rightBubbles := st1.rightBubbles ++
            [⟨some sphR, pr.lifetime, pr.lifetime, some pr.posR, some pr.velR,
              pr.sizeR, pr.timeR⟩]
          spherePool := pool2 }

/-- One pass of BubbleSystem.updateBubbleArray (lines 400-478) at the capped
delta time.  The JavaScript loop walks the array from the last index to the
first, splicing in place; processing the tail first reproduces both the
surviving order and the order in which freed spheres are pushed onto the
pool.  Every removal path returns the held sphere (if any) to the pool and
nulls it.  drift is the optional ship-controls velocity of line 437.
Writes to the sphere mesh (transform, material alpha, sinusoidal bobbing)
touch engine objects only and are not part of this state. -/
def updBubbles (cdt : ℚ) (drift : Option Vec3) :
    List Bubble → List ℕ → List Bubble × List ℕ
  | [], pool => ([], pool)
  | p :: rest, pool =>
    let done := updBubbles cdt drift rest pool
    let lt2 := p.lifetime - cdt
    if lt2 ≤ 0 ∨ p.sphere = none then
      (done.1, match p.sphere with
        | some sph => sph :: done.2
        | none => done.2)
    else if p.sphere = none ∨ p.position = none ∨ p.velocity = none then
      (done.1, match p.sphere with
        | some sph => sph :: done.2
        | none => done.2)
    else
      let pos1 := match p.position, p.velocity with
        | some pos, some vel => some (Vec3.add pos (Vec3.scale vel cdt))
        | _, _ => p.position
      let pos2 := match drift, pos1 with
        | some dv, some pos => some (Vec3.add pos (Vec3.scale dv ((1/5) * cdt)))
        | _, _ => pos1
      ({ p with lifetime := lt2, position := pos2, time := p.time + cdt }
          :: done.1,
        done.2)

/-- BubbleSystem.updateBubbleArray (lines 394-479): cap the delta time at
0.1 s (line 398) and process the array. -/
def updateBubbleArray (bubbles : List Bubble) (pool : List ℕ) (dt : ℚ)
    (drift : Option Vec3) : List Bubble × List ℕ :=
  updBubbles (min dt (1/10)) drift bubbles pool

/-- The bubble part of BubbleSystem.update (lines 389-392): update the left
array, then the right, threading the shared sphere pool. -/
def bubblesStep (st : BubbleState) (dt : ℚ) (drift : Option Vec3) :
    BubbleState :=
  let upL := updateBubbleArray st.leftBubbles st.spherePool dt drift
  let upR := updateBubbleArray st.rightBubbles upL.2 dt drift
  ⟨upL.1, upR.1, upR.2⟩

/-- One observable operation on the bubble state: an emitBubble call or a
frame update. -/
inductive BubbleOp where
  | emit (pr : EmitParams)
  | frame (dt : ℚ) (drift : Option Vec3)
deriving DecidableEq

def applyBubbleOp (st : BubbleState) : BubbleOp → BubbleState
  | .emit pr => emitBubble st pr
  | .frame dt drift => bubblesStep st dt drift

/-- The bubble state after a sequence of operations from the constructor
state. -/
def runBubbleOps (ops : List BubbleOp) : BubbleState :=
  ops.foldl applyBubbleOp initBubbleState

/-- Number of spheres held by the live bubbles of one array. -/
def countHeld (bs : List Bubble) : ℕ :=
  (bs.filter (fun b => b.sphere.isSome)).length

/-- The claimed invariant: held spheres plus pooled spheres account for the
whole constructor pool, and neither side exceeds maxBubbles entries. -/
def bubbleInv (st : BubbleState) : Prop :=
  countHeld st.leftBubbles + countHeld st.rightBubbles +
      st.spherePool.length = maxBubbles ∧
  st.leftBubbles.length ≤ maxBubbles ∧ st.rightBubbles.length ≤ maxBubbles

theorem countHeld_nil : countHeld ([] : List Bubble) = 0 := rfl

theorem countHeld_cons (b : Bubble) (l : List Bubble) :
    countHeld (b :: l) = (if b.sphere.isSome then 1 else 0) + countHeld l := by
  unfold countHeld
  rw [List.filter_cons]
  split_ifs with h <;> simp [Nat.add_comm]

theorem countHeld_append (l1 l2 : List Bubble) :
    countHeld (l1 ++ l2) = countHeld l1 + countHeld l2 := by
  unfold countHeld
  rw [List.filter_append, List.length_append]

theorem updBubbles_conserve (cdt : ℚ) (drift : Option Vec3) :
    ∀ (bs : List Bubble) (pool : List ℕ),
      countHeld (updBubbles cdt drift bs pool).1 +
        (updBubbles cdt drift bs pool).2.length =
      countHeld bs + pool.length := by
  intro bs
  induction bs with
  | nil => intro pool; simp [updBubbles, countHeld]
  | cons p rest ih =>
      intro pool
      have H := ih pool
      simp only [updBubbles]
      split_ifs with h1 h2
      · cases hs : p.sphere with
        | none =>
            simp only [hs, countHeld_cons, Option.isSome_none,
              Bool.false_eq_true, if_false, Nat.zero_add]
            omega
        | some sph =>
            simp only [hs, countHeld_cons, Option.isSome_some, if_true,
              List.length_cons]
            omega
      · cases hs : p.sphere with
        | none =>
            simp only [hs, countHeld_cons, Option.isSome_none,
              Bool.false_eq_true, if_false, Nat.zero_add]
            omega
        | some sph =>
            simp only [hs, countHeld_cons, Option.isSome_some, if_true,
              List.length_cons]
            omega
      · cases hs : p.sphere with
        | none => simp [hs] at h1
        | some sph =>
            simp only [countHeld_cons, hs, Option.isSome_some, if_true]
            omega

theorem updBubbles_len (cdt : ℚ) (drift : Option Vec3) :
    ∀ (bs : List Bubble) (pool : List ℕ),
      (updBubbles cdt drift bs pool).1.length ≤ bs.length := by
  intro bs
  induction bs with
  | nil => intro pool; simp [updBubbles]
  | cons p rest ih =>
      intro pool
      have H := ih pool
      simp only [updBubbles]
      split_ifs with h1 h2
      · exact Nat.le_succ_of_le H
      · exact Nat.le_succ_of_le H
      · simpa using Nat.succ_le_succ H

theorem emitBubble_inv (st : BubbleState) (pr : EmitParams)
    (h : bubbleInv st) : bubbleInv (emitBubble st pr) := by
  obtain ⟨hc, hl, hr⟩ := h
  unfold emitBubble
  split_ifs with hg
  · exact ⟨hc, hl, hr⟩
  · push_neg at hg
    obtain ⟨hgl, hgr, hgp⟩ := hg
    match hpool : st.spherePool with
    | [] => rw [hpool] at hgp; simp at hgp
    | [sphL] => rw [hpool] at hgp; simp at hgp
    | sphL :: sphR :: pool2 =>
        rw [hpool] at hc hgp
        simp only [List.length_cons] at hc
        refine ⟨?_, ?_, ?_⟩
        · rw [countHeld_append, countHeld_append, countHeld_cons,
            countHeld_cons, countHeld_nil]
          simp only [Option.isSome_some, if_true]
          omega
        · simp only [List.length_append, List.length_cons, List.length_nil]
          omega
        · simp only [List.length_append, List.length_cons, List.length_nil]
          omega

theorem bubblesStep_inv (st : BubbleState) (dt : ℚ) (drift : Option Vec3)
    (h : bubbleInv st) : bubbleInv (bubblesStep st dt drift) := by
  obtain ⟨hc, hl, hr⟩ := h
  simp only [bubblesStep, updateBubbleArray]
  have hL := updBubbles_conserve (min dt (1/10)) drift st.leftBubbles
    st.spherePool
  have hR := updBubbles_conserve (min dt (1/10)) drift st.rightBubbles
    (updBubbles (min dt (1/10)) drift st.leftBubbles st.spherePool).2
  have hLl := updBubbles_len (min dt (1/10)) drift st.leftBubbles st.spherePool
  have hRl := updBubbles_len (min dt (1/10)) drift st.rightBubbles
    (updBubbles (min dt (1/10)) drift st.leftBubbles st.spherePool).2
  refine ⟨?_, ?_, ?_⟩ <;> dsimp only <;> omega

theorem runBubbleOps_inv (ops : List BubbleOp) :
    ∀ st : BubbleState, bubbleInv st → bubbleInv (ops.foldl applyBubbleOp st) := by
  induction ops with
  | nil => intro st h; simpa using h
  | cons op ops ih =>
      intro st h
      rw [List.foldl_cons]
      apply ih
      cases op with
      | emit pr => exact emitBubble_inv st pr h
      | frame dt drift => exact bubblesStep_inv st dt drift h

/-- Claim C8: from the constructor state, every sequence of emitBubble calls
and frame updates preserves the accounting invariant: spheres held by live
bubbles on the two sides plus spheres in the pool equal maxBubbles; hence
the number of visible bubbles never exceeds maxBubbles, and neither side
ever holds more than maxBubbles entries. -/
theorem C8_pool_conservation (ops : List BubbleOp) :
    countHeld (runBubbleOps ops).leftBubbles +
      countHeld (runBubbleOps ops).rightBubbles +
      (runBubbleOps ops).spherePool.length = maxBubbles ∧
    (runBubbleOps ops).leftBubbles.length ≤ maxBubbles ∧
    (runBubbleOps ops).rightBubbles.length ≤ maxBubbles ∧
    countHeld (runBubbleOps ops).leftBubbles +
      countHeld (runBubbleOps ops).rightBubbles ≤ maxBubbles := by
  have hinit : bubbleInv initBubbleState := by
    unfold bubbleInv initBubbleState countHeld
    simp
  have h := runBubbleOps_inv ops initBubbleState hinit
  unfold runBubbleOps
  obtain ⟨hc, hl, hr⟩ := h
  exact ⟨hc, hl, hr, by omega⟩

/-! ## Model-configuration scaling (applyModelScaling, src/app.js lines
280-301)

A model configuration is a JSON object; the fields applyModelScaling never
touches are collected in the type parameters, so preservation of every
other field is stated generically.  A JSON vector may omit components
(Option), and the position or scaling object itself may be absent. -/

/-- A JSON vector with possibly missing components. -/
structure Vec3Opt where
  x : Option ℚ
  y : Option ℚ
  z : Option ℚ
deriving DecidableEq

/-- One entry of the objects array: position, scaling, and all its other
fields (name, path, properties, rotation, ...) bundled in rest. -/
structure ModelEntry (β : Type) where
  position : Option Vec3Opt
  scaling : Option Vec3Opt
  rest : β
deriving DecidableEq

/-- A model-configuration file: the objects array (none when absent or not
an array) and every other top-level field bundled in rest. -/
structure ModelFile (α β : Type) where
  objects : Option (List (ModelEntry β))
  rest : α
deriving DecidableEq

/-- applyModelScaling (src/app.js lines 280-301): return the configuration
unchanged when objects is absent or not an array; otherwise rebuild it with
each position component (defaulting to 0) multiplied by 5 and each scaling
component (defaulting to 1) multiplied by 5, an absent position becoming
the origin and an absent scaling becoming (5, 5, 5); the object spread
keeps every other field. -/
def applyModelScaling {α β : Type} (cfg : ModelFile α β) : ModelFile α β :=
  match cfg.objects with
  | none => cfg
  | some objs =>
    { cfg with objects := some (objs.map (fun mc =>
        { mc with
          position :=
            some (match mc.position with
              | some p => ⟨some ((p.x.getD 0) * 5), some ((p.y.getD 0) * 5),
                  some ((p.z.getD 0) * 5)⟩
              | none => ⟨some 0, some 0, some 0⟩)
          scaling :=
            some (match mc.scaling with
              | some sc => ⟨some ((sc.x.getD 1) * 5), some ((sc.y.getD 1) * 5),
                  some ((sc.z.getD 1) * 5)⟩
              | none => ⟨some 5, some 5, some 5⟩) })) }

/-- Modelled from the wording of claim C10: five times the input position
componentwise, with missing components (or a missing position object)
treated as 0. -/
def specScaledPosition (p : Option Vec3Opt) : Vec3Opt :=
  ⟨some (5 * ((p.getD ⟨none, none, none⟩).x.getD 0)),
   some (5 * ((p.getD ⟨none, none, none⟩).y.getD 0)),
   some (5 * ((p.getD ⟨none, none, none⟩).z.getD 0))⟩

/-- Modelled from the wording of claim C10: five times the input scaling
componentwise, with missing components (or a missing scaling object)
treated as 1. -/
def specScaledScaling (sc : Option Vec3Opt) : Vec3Opt :=
  ⟨some (5 * ((sc.getD ⟨none, none, none⟩).x.getD 1)),
   some (5 * ((sc.getD ⟨none, none, none⟩).y.getD 1)),
   some (5 * ((sc.getD ⟨none, none, none⟩).z.getD 1))⟩

/-- Claim C10: applyModelScaling returns a configuration whose objects
carry exactly 5 times the input position (missing components 0) and 5
times the input scaling (missing components 1), leaves every other field
of each object and of the top level unchanged, and returns a configuration
without an objects array unchanged.  The embedding is a pure function, so
the input value is never mutated. -/
theorem C10_applyModelScaling_spec {α β : Type} (cfg : ModelFile α β) :
    (cfg.objects = none → applyModelScaling cfg = cfg) ∧
    (applyModelScaling cfg).rest = cfg.rest ∧
    (∀ objs, cfg.objects = some objs →
      (applyModelScaling cfg).objects = some (objs.map (fun mc =>
        { position := some (specScaledPosition mc.position)
          scaling := some (specScaledScaling mc.scaling)
          rest := mc.rest }))) := by
  cases hobj : cfg.objects with
  | none =>
      refine ⟨fun _ => ?_, ?_, ?_⟩
      · unfold applyModelScaling
        rw [hobj]
      · unfold applyModelScaling
        rw [hobj]
      · intro objs hsome
        exact Option.noConfusion hsome
  | some objs =>
      refine ⟨fun hn => ?_, ?_, ?_⟩
      · exact Option.noConfusion hn
      · unfold applyModelScaling
        rw [hobj]
      · intro objs2 hsome
        rcases Option.some.inj hsome with rfl
        unfold applyModelScaling
        rw [hobj]
        dsimp only
        refine congrArg some (List.map_congr_left ?_)
        intro mc _
        cases hp : mc.position with
        | none =>
            cases hsc : mc.scaling with
            | none => simp [specScaledPosition, specScaledScaling, mul_comm]
            | some sc => simp [specScaledPosition, specScaledScaling, mul_comm]
        | some p =>
            cases hsc : mc.scaling with
            | none => simp [specScaledPosition, specScaledScaling, mul_comm]
            | some sc => simp [specScaledPosition, specScaledScaling, mul_comm]

/-- Concrete instance of C10_applyModelScaling_spec: a configuration
without an objects array is returned unchanged, and one object with
position (1, missing, 0) and no scaling is scaled to position (5, 0, 0)
and scaling (5, 5, 5) with its other field kept. -/
theorem C10_witness :
    applyModelScaling (⟨none, 7⟩ : ModelFile ℕ ℕ) = ⟨none, 7⟩ ∧
    (applyModelScaling
        (⟨some [⟨some ⟨some 1, none, some 0⟩, none, 3⟩], 7⟩ :
          ModelFile ℕ ℕ)).objects =
      some [⟨some (specScaledPosition (some ⟨some 1, none, some 0⟩)),
        some (specScaledScaling none), 3⟩] :=
  ⟨(C10_applyModelScaling_spec (⟨none, 7⟩ : ModelFile ℕ ℕ)).1 rfl,
   (C10_applyModelScaling_spec
      (⟨some [⟨some ⟨some 1, none, some 0⟩, none, 3⟩], 7⟩ :
        ModelFile ℕ ℕ)).2.2 [⟨some ⟨some 1, none, some 0⟩, none, 3⟩] rfl⟩

end PirateSurf
